import Mathlib

/-!
# Verification of the dataset-cache construction pipeline

Shallow embedding of
`yggdrasil_decision_forests/learner/distributed_decision_tree/dataset_cache/dataset_cache.cc`:
the shard planner, the metadata builder (`internal::InitializeMetadata`),
the job dispatcher / result collector (`internal::SeparateDatasetColumns`),
the build coordinator (`CreateDatasetCacheFromShardedFiles`) and the
report generator (`MetaDataReport`).

Machine integers of the C++ code (`int`, `size_t`, `uint64`) are modelled
as `ℕ`: all quantities involved (shard counts, column counts, example
counts) are non-negative and far below any overflow boundary in the
scenarios the claims quantify over.  Fallible operations return explicit
result values; the external collaborators (filesystem, worker pool, shard
listing) are modelled as oracles in an environment record, with one
boolean per fallible call so that every failure point of the C++ code is
reachable in the model.
-/

namespace DatasetCache

/-- `dataset::proto::ColumnType` (the cases this file consumes plus a
sample of the remaining, unsupported cases of the real enum). -/
inductive ColumnType where
  | UNKNOWN
  | NUMERICAL
  | CATEGORICAL
  | BOOLEAN
  | CATEGORICAL_SET
  | HASH
  deriving DecidableEq, Repr

/-- `ColumnType_Name`, used in the unsupported-type error message. -/
def ColumnType.name : ColumnType → String
  | .UNKNOWN => "UNKNOWN"
  | .NUMERICAL => "NUMERICAL"
  | .CATEGORICAL => "CATEGORICAL"
  | .BOOLEAN => "BOOLEAN"
  | .CATEGORICAL_SET => "CATEGORICAL_SET"
  | .HASH => "HASH"

/-- Numerical statistics of a dataspec column (`src.numerical()`).
The C++ `mean` is a double; it is only copied, never computed with,
so `ℚ` is an exact stand-in. -/
structure NumericalSpec where
  mean : ℚ := 0
  deriving DecidableEq, Repr

/-- Categorical statistics of a dataspec column (`src.categorical()`). -/
structure CategoricalSpec where
  number_of_unique_values : ℕ := 0
  most_frequent_value : ℕ := 0
  deriving DecidableEq, Repr

/-- Boolean statistics of a dataspec column (`src.boolean()`). -/
structure BooleanSpec where
  count_true : ℕ := 0
  count_false : ℕ := 0
  deriving DecidableEq, Repr

/-- One column of `dataset::proto::DataSpecification`. -/
structure DataSpecColumn where
  name : String := ""
  type : ColumnType := .UNKNOWN
  numerical : NumericalSpec := {}
  categorical : CategoricalSpec := {}
  boolean : BooleanSpec := {}
  deriving DecidableEq, Repr

/-- `dataset::proto::DataSpecification` (the part this file reads). -/
structure DataSpecification where
  columns : List DataSpecColumn := []
  deriving DecidableEq, Repr

/-- `proto::CreateDatasetCacheConfig`.  The three fields are proto2
optionals: `Option` tracks field presence, so `has_foo()` is `.isSome`
and the getter `foo()` is `.getD` of the proto default. -/
structure CreateDatasetCacheConfig where
  label_column_idx : Option ℕ := none
  weight_column_idx : Option ℕ := none
  remove_zero_weighted_examples : Option Bool := none
  deriving DecidableEq, Repr

/-- The `type` oneof of `proto::CacheMetadata::Column`.  Constructor
payloads mirror the proto fields read or written by this file. -/
inductive ColVariant where
  | numerical (replacement_missing_value : ℚ) (num_unique_values : ℕ)
      (discretized : Bool) (num_discretized_values : ℕ)
  | categorical (num_values : ℕ) (replacement_missing_value : ℕ)
  | boolean (replacement_missing_value : Bool)
  deriving DecidableEq, Repr

/-- `proto::CacheMetadata::Column`.  `variant = none` is the unset oneof
(`TYPE_NOT_SET`); a freshly added column is `⟨false, none⟩`. -/
structure ColumnMetadata where
  available : Bool := false
  variant : Option ColVariant := none
  deriving DecidableEq, Repr

instance : Inhabited ColumnMetadata := ⟨{}⟩

/-- `column.type_case()` as the oneof field number used by
`column_type_to_string` in `MetaDataReport` (2 = Numerical,
3 = Categorical, 4 = Boolean, 0 = not set). -/
def ColumnMetadata.type_case (c : ColumnMetadata) : ℕ :=
  match c.variant with
  | none => 0
  | some (.numerical _ _ _ _) => 2
  | some (.categorical _ _) => 3
  | some (.boolean _) => 4

/-- `column.has_numerical()`. -/
def ColumnMetadata.has_numerical (c : ColumnMetadata) : Bool :=
  match c.variant with
  | some (.numerical _ _ _ _) => true
  | _ => false

/-- `proto::CacheMetadata`, the root persisted artifact. -/
structure CacheMetadata where
  num_examples : ℕ := 0
  num_shards_in_feature_cache : ℕ := 0
  label_column_idx : Option ℕ := none
  weight_column_idx : Option ℕ := none
  columns : List ColumnMetadata := []
  deriving DecidableEq, Repr

/-- A default-constructed `proto::CacheMetadata`, as declared at the top
of `CreateDatasetCacheFromShardedFiles`. -/
def CacheMetadata.fresh : CacheMetadata := {}

/-! ## Shard planner (`SeparateDatasetColumns`, lines 300-305) -/

/-- `kNumParallelQueriesPerWorker`: default per-worker parallelism. -/
def kNumParallelQueriesPerWorker : ℕ := 5

/-- `kNumShardPerWorkers`: target shards handled per worker. -/
def kNumShardPerWorkers : ℕ := 10

/-- `shards_per_requests = max(1, Nin / (NumWorkers * kNumShardPerWorkers))`
(C++ integer division). -/
def shards_per_requests (Nin W : ℕ) : ℕ :=
  max 1 (Nin / (W * kNumShardPerWorkers))

/-- `num_output_shards = (Nin + shards_per_requests - 1) / shards_per_requests`. -/
def num_output_shards (Nin W : ℕ) : ℕ :=
  (Nin + shards_per_requests Nin W - 1) / shards_per_requests Nin W

/-- `begin_shard_idx = output_shard_idx * shards_per_requests` (line 337). -/
def begin_shard_idx (Nin W i : ℕ) : ℕ := i * shards_per_requests Nin W

/-- `end_shard_idx = min(dataset_shards.size(), (output_shard_idx + 1) *
shards_per_requests)` (line 338). -/
def end_shard_idx (Nin W i : ℕ) : ℕ := min Nin ((i + 1) * shards_per_requests Nin W)

/-- Worker chosen for output shard `i`:
`worker_idx = output_shard_idx % NumWorkers` (line 347). -/
def job_worker (W i : ℕ) : ℕ := i % W

/-! ## `GetColumnsOrAll` -/

/-- `GetColumnsOrAll`: the explicit subset unioned with the label and
weight indices, sorted (`std::sort`) and de-duplicated (`std::unique` on
a sorted vector); or all column indices when no subset is given. -/
def GetColumnsOrAll (data_spec : DataSpecification)
    (column_idxs : Option (List ℕ)) (config : CreateDatasetCacheConfig) :
    List ℕ :=
  match column_idxs with
  | some cs =>
      ((cs ++ config.label_column_idx.toList ++ config.weight_column_idx.toList).insertionSort
        (· ≤ ·)).dedup
  | none => List.range data_spec.columns.length

/-! ## `internal::InitializeMetadata` -/

/-- Error taxonomy.  The C++ code returns `absl::InvalidArgumentError`
with a message for configuration and type errors; filesystem and
worker-pool failures surface as generic statuses.  `outOfRange` marks a
proto repeated-field access outside bounds, which in C++ is a runtime
check failure rather than a status (never reached in the theorems below,
whose hypotheses keep indices in range). -/
inductive Err where
  | invalidArgument (msg : String)
  | ioError
  | distributionError
  | outOfRange
  deriving DecidableEq, Repr

/-- Message of the error raised when `remove_zero_weighted_examples` is
set without a weight column (line 429). -/
def msgNoWeightColumn : String :=
  "\"remove_zero_weighted_examples\" without a weight column"

/-- Message of the error raised when the weight column is not numerical
(line 434). -/
def msgWeightNotNumerical : String :=
  "\"remove_zero_weighted_examples\" only support numerical weighted columns."

/-- The `switch (src.type())` of `InitializeMetadata`: the variant
written into the cache column for a selected dataspec column. -/
def mkVariant (src : DataSpecColumn) : Except Err ColVariant :=
  match src.type with
  | .NUMERICAL => .ok (.numerical src.numerical.mean 0 false 0)
  | .CATEGORICAL =>
      .ok (.categorical src.categorical.number_of_unique_values
        src.categorical.most_frequent_value)
  | .BOOLEAN => .ok (.boolean (src.boolean.count_true ≥ src.boolean.count_false))
  | t => .error (.invalidArgument
      ("Non supported type " ++ t.name ++ " for column " ++ src.name))

/-- The `for (const auto col_idx : columns)` loop of `InitializeMetadata`:
marks each selected column available and fills its variant. -/
def applySelected (data_spec : DataSpecification) :
    List ℕ → List ColumnMetadata → Except Err (List ColumnMetadata)
  | [], acc => .ok acc
  | i :: rest, acc =>
      match data_spec.columns[i]? with
      | none => .error .outOfRange
      | some src =>
          match mkVariant src with
          | .error e => .error e
          | .ok v => applySelected data_spec rest (acc.set i ⟨true, some v⟩)

/-- `internal::InitializeMetadata` (lines 381-441): copies the label and
weight indices, allocates one column slot per dataspec column, fills the
selected ones, then validates the `remove_zero_weighted_examples`
configuration.  Note the validation triggers on **field presence**
(`has_remove_zero_weighted_examples()`), not on the field's value. -/
def InitializeMetadata (data_spec : DataSpecification) (columns : List ℕ)
    (config : CreateDatasetCacheConfig) (metadata : CacheMetadata) :
    Except Err CacheMetadata :=
  let md := { metadata with
    label_column_idx := if config.label_column_idx.isSome then
      config.label_column_idx else metadata.label_column_idx,
    weight_column_idx := if config.weight_column_idx.isSome then
      config.weight_column_idx else metadata.weight_column_idx }
  let md := { md with
    columns := md.columns ++ List.replicate data_spec.columns.length ({} : ColumnMetadata) }
  match applySelected data_spec columns md.columns with
  | .error e => .error e
  | .ok cols =>
      let md := { md with columns := cols }
      if config.remove_zero_weighted_examples.isSome then
        match config.weight_column_idx with
        | none => .error (.invalidArgument msgNoWeightColumn)
        | some wi =>
            match data_spec.columns[wi]? with
            | none => .error .outOfRange
            | some c =>
                if c.type ≠ ColumnType.NUMERICAL then
                  .error (.invalidArgument msgWeightNotNumerical)
                else .ok md
      else .ok md

/-! ## `MetaDataReport`

The report renders ratio values through `absl::Substitute`, whose float
argument conversion (`absl::AlphaNum`) prints a value with at most six
significant digits, trailing zeros stripped (`%g`-style), `"nan"` for a
NaN.  The helpers below model that rendering for the values this report
can produce: every rendered value is a ratio `a / b` of counts with
`a ≤ b` (so it lies in `[0, 1]`), or the NaN / infinity of a division by
zero.  The C++ division is on IEEE binary32; it is modelled by exact
rational division, which renders to the same six significant digits for
these count ratios (the binary32 rounding error, at most one unit in the
24th binary place of a value ≤ 1, cannot move the sixth significant
decimal digit of such a ratio).  Ties in the decimal rounding (half-even
in C) do not arise for the values the theorems below evaluate. -/

/-- Position of the first significant decimal digit of the fraction
`a / b` (for `0 < a < b`): the least `d ≥ 1` with `b ≤ a * 10 ^ d`,
found by fuelled search. -/
def firstSigPos (fuel a b : ℕ) : ℕ :=
  match fuel with
  | 0 => 1
  | f + 1 => if b ≤ a * 10 then 1 else firstSigPos f (a * 10) b + 1

/-- Decimal digits of `n < 10 ^ 6`, left-padded with zeros to width 6. -/
def pad6 (n : ℕ) : List Char :=
  let s := (toString n).toList
  List.replicate (6 - s.length) '0' ++ s

/-- Strip trailing `'0'` characters. -/
def stripTrailingZeros (s : List Char) : List Char :=
  (s.reverse.dropWhile (· = '0')).reverse

/-- Six-significant-digit rendering of a fraction `a / b` in `(0, 1)`:
`n` is `a / b * 10 ^ (d + 5)` rounded to the nearest integer (so `n`
holds the six leading significant digits), then trailing zeros are
stripped.  `n = 10 ^ 6` is the carry case where rounding overflows into
the next decimal position. -/
def sixSigFrac (a b : ℕ) : String :=
  let d := firstSigPos 400 a b
  let n := (2 * a * 10 ^ (d + 5) + b) / (2 * b)
  if n = 10 ^ 6 then
    if d = 1 then "1"
    else
      "0." ++ String.mk (List.replicate (d - 2) '0' ++ ['1'])
  else
    "0." ++ String.mk (List.replicate (d - 1) '0' ++ stripTrailingZeros (pad6 n))

/-- `static_cast<float>(a) / b` rendered by `absl::Substitute`: `"nan"`
for `0 / 0`, `"inf"` for `a / 0` with `a > 0`; an integer quotient
(here only `0` and `1` arise: the ratios are counts over totals with
`a ≤ b`) prints as a plain integer, and a fractional quotient with six
significant digits. -/
def fmtFloatDiv (a b : ℕ) : String :=
  if b = 0 then (if a = 0 then "nan" else "inf")
  else if a % b = 0 then toString (a / b)
  else sixSigFrac a b

/-- The per-feature counters accumulated by the statistics loop of
`MetaDataReport` (lines 187-231).  `count_case0/2/3/4` model the
`count_by_types` hash map: its keys can only be the oneof case numbers
0, 2, 3, 4. -/
structure ReportStats where
  count_case0 : ℕ := 0
  count_case2 : ℕ := 0
  count_case3 : ℕ := 0
  count_case4 : ℕ := 0
  sum_num_unique_values : ℕ := 0
  num_numerical : ℕ := 0
  num_numerical_discretized : ℕ := 0
  num_numerical_less_100_values : ℕ := 0
  num_numerical_less_16k_values : ℕ := 0
  sum_num_discretized_values : ℕ := 0
  deriving DecidableEq, Repr

/-- One iteration of the statistics loop, for the column it reads. -/
def accumStatsCol (st : ReportStats) (column : ColumnMetadata) : ReportStats :=
  let st :=
    match column.type_case with
    | 2 => { st with count_case2 := st.count_case2 + 1 }
    | 3 => { st with count_case3 := st.count_case3 + 1 }
    | 4 => { st with count_case4 := st.count_case4 + 1 }
    | _ => { st with count_case0 := st.count_case0 + 1 }
  match column.variant with
  | some (.numerical _ u disc nd) =>
      let st := { st with sum_num_unique_values := st.sum_num_unique_values + u }
      let st := if disc then
          { st with
            num_numerical_discretized := st.num_numerical_discretized + 1
            sum_num_discretized_values := st.sum_num_discretized_values + nd }
        else st
      let st := if u ≤ 100 then
          { st with num_numerical_less_100_values := st.num_numerical_less_100_values + 1 }
        else st
      let st := if u ≤ 16000 then
          { st with num_numerical_less_16k_values := st.num_numerical_less_16k_values + 1 }
        else st
      { st with num_numerical := st.num_numerical + 1 }
  | _ => st

/-- One iteration of the statistics loop, for feature index `f`.
Out-of-range feature indices (excluded in C++ by a debug check) read a
default column. -/
def accumStats (md : CacheMetadata) (st : ReportStats) (f : ℕ) : ReportStats :=
  accumStatsCol st (md.columns.getD f {})

/-- The statistics loop over the effective features. -/
def reportStats (md : CacheMetadata) (features : List ℕ) : ReportStats :=
  features.foldl (accumStats md) {}

/-- `column_type_to_string` (lines 197-208). -/
def column_type_to_string (t : ℕ) : String :=
  match t with
  | 2 => "NUMERICAL"
  | 3 => "CATEGORICAL"
  | 4 => "BOOLEAN"
  | _ => "Unknown type " ++ toString t

/-- The `count_by_types` lines.  `absl::flat_hash_map` iterates in an
unspecified order; the model emits the possible keys in ascending order.
Theorems below only assert line membership, which is order-independent. -/
def typeCountLines (st : ReportStats) : List String :=
  ([(0, st.count_case0), (2, st.count_case2), (3, st.count_case3), (4, st.count_case4)].filter
    (fun p => p.2 ≠ 0)).map
    (fun p => "\t column-type: " ++ column_type_to_string p.1 ++ " count: " ++ toString p.2)

/-- `MetaDataReport` (lines 173-269), as the list of lines of the
report (the C++ report is these lines each terminated by `"\n"`). -/
def MetaDataReportLines (metadata : CacheMetadata)
    (features : Option (List ℕ) := none) : List String :=
  let effective_features :=
    match features with
    | some fs => fs
    | none => List.range metadata.columns.length
  let st := reportStats metadata effective_features
  ["Number of columns: " ++ toString metadata.columns.length,
   "Number of examples: " ++ toString metadata.num_examples,
   "Statistics on " ++ toString effective_features.length ++ " / " ++
     toString metadata.columns.length ++ " features",
   "Columns by type"]
  ++ typeCountLines st
  ++ (if st.num_numerical > 0 then
      ["Numerical columns:",
       "\tMean number of unique values: " ++
         toString (st.sum_num_unique_values / st.num_numerical),
       "\tRatio of discretized numerical columns: " ++
         fmtFloatDiv st.num_numerical_discretized st.num_numerical ++
         " (" ++ toString st.num_numerical_discretized ++ ")",
       "\tRatio of numerical columns with <=100 values: " ++
         fmtFloatDiv st.num_numerical_less_100_values st.num_numerical ++
         " (" ++ toString st.num_numerical_less_100_values ++ ")",
       "\tRatio of numerical columns with <=16k values: " ++
         fmtFloatDiv st.num_numerical_less_16k_values st.num_numerical ++
         " (" ++ toString st.num_numerical_less_16k_values ++ ")",
       "\tMean number of unique values for discretized columns: " ++
         fmtFloatDiv st.sum_num_discretized_values st.num_numerical_discretized]
      else [])

/-- A report "contains the exact line `s`": the line is present either
as written or with the report's leading tab. -/
def containsLine (lines : List String) (s : String) : Prop :=
  s ∈ lines ∨ ("\t" ++ s) ∈ lines

instance (lines : List String) (s : String) : Decidable (containsLine lines s) := by
  unfold containsLine; infer_instance

/-! ## The build state machine

`World` is the observable state the build mutates: the on-disk cache
files (root metadata, per-shard metadata keyed by the deterministic
`ShardMetadataPath` index), the directory layout, and the worker pool
(whether it was started, its per-worker concurrency bound, the requests
submitted to it so far).

`Env` is the oracle for every external collaborator: one boolean per
fallible call (a `true` means that call fails, modelling the C++
`RETURN_IF_ERROR` / `ASSIGN_OR_RETURN` sites), the shard list produced
by `ListShards`, the worker-pool size, and the stream of asynchronous
answers (`arrival` gives the `shard_idx` carried by each successive
answer, `res` the `num_examples` it reports — completion order is
unspecified, so `arrival` is an arbitrary list). -/

/-- `proto::WorkerRequest::SeparateDatasetColumns` as submitted by the
dispatcher (the request also carries the dataspec verbatim). -/
structure WorkerRequest where
  columns : List ℕ
  dataspec : DataSpecification
  column_idx_remove_example_with_zero : Option ℕ
  output_directory : String
  num_shards : ℕ
  shard_idx : ℕ
  dataset_path : String
  worker_idx : ℕ
  deriving DecidableEq, Repr

/-- Observable state of the build. -/
structure World where
  rootMeta : Option CacheMetadata
  shardMeta : ℕ → Option ℕ
  dirs : Bool
  managerStarted : Bool
  parallelism : ℕ
  dispatched : List WorkerRequest

/-- A state with nothing on disk and no worker pool. -/
def World.empty : World :=
  { rootMeta := none, shardMeta := fun _ => none, dirs := false,
    managerStarted := false, parallelism := 0, dispatched := [] }

/-- Oracles for the external collaborators. -/
structure Env where
  readRootFail : Bool
  dirFail : Bool
  managerFail : Bool
  numWorkers : ℕ
  listShardsFail : Bool
  datasetShards : List String
  datasetType : String
  setParallelOneFail : Bool
  setParallelRestoreFail : Bool
  readShardFail : ℕ → Bool
  dispatchFail : ℕ → Bool
  collectFail : ℕ → Bool
  writeShardFail : ℕ → Bool
  res : ℕ → ℕ
  arrival : List ℕ
  writeRootFail : Bool
  doneFail : Bool

/-- An environment in which no external call fails. -/
def Env.NoFailures (env : Env) : Prop :=
  env.readRootFail = false ∧ env.dirFail = false ∧ env.managerFail = false ∧
  env.listShardsFail = false ∧ env.setParallelOneFail = false ∧
  env.setParallelRestoreFail = false ∧
  (∀ i, env.readShardFail i = false) ∧ (∀ i, env.dispatchFail i = false) ∧
  (∀ i, env.collectFail i = false) ∧ (∀ i, env.writeShardFail i = false) ∧
  env.writeRootFail = false ∧ env.doneFail = false

/-- Result of a build phase: the world at completion or at the failure
point, following the C++ `RETURN_IF_ERROR` early exits. -/
inductive BRes (α : Type) where
  | ok (w : World) (a : α)
  | err (w : World) (e : Err)

/-- The world carried by a result. -/
def BRes.world {α : Type} : BRes α → World
  | .ok w _ => w
  | .err w _ => w

/-- The request built for output shard `i` (lines 336-347): covered
input range `[begin_shard_idx, end_shard_idx)`, comma-joined shard
paths behind the dataset-type tag, target worker `i % NumWorkers`. -/
def mkWorkerRequest (dataset_shards : List String) (dataset_type : String)
    (data_spec : DataSpecification) (columns : List ℕ)
    (config : CreateDatasetCacheConfig) (cache_directory : String)
    (num W i : ℕ) : WorkerRequest :=
  let Nin := dataset_shards.length
  let b := begin_shard_idx Nin W i
  let e := end_shard_idx Nin W i
  { columns := columns
    dataspec := data_spec
    column_idx_remove_example_with_zero :=
      if config.remove_zero_weighted_examples.getD false = true ∧
          config.weight_column_idx.isSome then
        config.weight_column_idx
      else none
    output_directory := cache_directory
    num_shards := num
    shard_idx := i
    dataset_path :=
      dataset_type ++ ":" ++ String.intercalate "," ((dataset_shards.drop b).take (e - b))
    worker_idx := job_worker W i }

/-- The dispatch loop of `SeparateDatasetColumns` (lines 316-349), over
the remaining output-shard indices `is`.  A shard whose metadata file
already exists is read and folded into the running total; otherwise one
asynchronous request is submitted and the pending counter grows. -/
def sepDispatchLoop (env : Env) (dataset_shards : List String)
    (dataset_type : String) (data_spec : DataSpecification)
    (columns : List ℕ) (config : CreateDatasetCacheConfig)
    (cache_directory : String) (num : ℕ) :
    List ℕ → World → CacheMetadata → ℕ → BRes (CacheMetadata × ℕ)
  | [], w, cm, pending => .ok w (cm, pending)
  | i :: rest, w, cm, pending =>
      match w.shardMeta i with
      | some stored =>
          if env.readShardFail i then .err w .ioError
          else
            sepDispatchLoop env dataset_shards dataset_type data_spec columns
              config cache_directory num rest w
              { cm with num_examples := cm.num_examples + stored } pending
      | none =>
          if env.dispatchFail i then .err w .distributionError
          else
            sepDispatchLoop env dataset_shards dataset_type data_spec columns
              config cache_directory num rest
              { w with dispatched := w.dispatched ++
                  [mkWorkerRequest dataset_shards dataset_type data_spec columns
                    config cache_directory num env.numWorkers i] }
              cm (pending + 1)

/-- The collect loop of `SeparateDatasetColumns` (lines 352-371), over
the shard indices carried by the successive asynchronous answers: each
answer's shard-metadata file is written, then its example count is
folded into the running total.  The failure oracles are keyed by the
answer's shard index. -/
def sepCollectLoop (env : Env) :
    List ℕ → World → CacheMetadata → BRes CacheMetadata
  | [], w, cm => .ok w cm
  | i :: rest, w, cm =>
      if env.collectFail i then .err w .distributionError
      else if env.writeShardFail i then .err w .ioError
      else
        sepCollectLoop env rest
          { w with shardMeta := Function.update w.shardMeta i (some (env.res i)) }
          { cm with num_examples := cm.num_examples + env.res i }

/-- `internal::SeparateDatasetColumns` (lines 272-379): plan, narrow the
per-worker concurrency to one, dispatch the missing shards, block for
exactly `pending` answers, restore the concurrency default. -/
def SeparateDatasetColumns (env : Env) (dataset_shards : List String)
    (dataset_type : String) (data_spec : DataSpecification)
    (columns : List ℕ) (config : CreateDatasetCacheConfig)
    (cache_directory : String) (w : World) (cache_metadata : CacheMetadata) :
    BRes CacheMetadata :=
  let cm := { cache_metadata with num_examples := 0 }
  let Nin := dataset_shards.length
  let num := num_output_shards Nin env.numWorkers
  if env.setParallelOneFail then .err w .distributionError
  else
    let w := { w with parallelism := 1 }
    let cm := { cm with num_shards_in_feature_cache := num }
    match sepDispatchLoop env dataset_shards dataset_type data_spec columns
        config cache_directory num (List.range num) w cm 0 with
    | .err w' e => .err w' e
    | .ok w' (cm', pending) =>
        match sepCollectLoop env (env.arrival.take pending) w' cm' with
        | .err w'' e => .err w'' e
        | .ok w'' cm'' =>
            if env.setParallelRestoreFail then .err w'' .distributionError
            else .ok { w'' with parallelism := kNumParallelQueriesPerWorker } cm''

/-- `CreateDatasetCacheFromShardedFiles` (lines 94-163): short-circuit on
an existing root metadata file, create the directory layout, start the
worker pool, build the metadata, list the input shards, separate the
columns, persist the root metadata, signal the pool done.  `typed_path`
is only consumed by the external shard-listing collaborator, whose
outcome the environment supplies. -/
def CreateDatasetCacheFromShardedFiles (env : Env) (typed_path : String)
    (data_spec : DataSpecification) (columns : Option (List ℕ))
    (cache_directory : String) (config : CreateDatasetCacheConfig)
    (w : World) : BRes Unit :=
  match w.rootMeta with
  | some _ => if env.readRootFail then .err w .ioError else .ok w ()
  | none =>
      if env.dirFail then .err w .ioError
      else
        let w := { w with dirs := true }
        if env.managerFail then .err w .distributionError
        else
          let w := { w with
            managerStarted := true
            parallelism := kNumParallelQueriesPerWorker }
          let effective_columns := GetColumnsOrAll data_spec columns config
          match InitializeMetadata data_spec effective_columns config .fresh with
          | .error e => .err w e
          | .ok metadata =>
              if env.listShardsFail then .err w .ioError
              else
                match SeparateDatasetColumns env env.datasetShards env.datasetType
                    data_spec effective_columns config cache_directory w metadata with
                | .err w' e => .err w' e
                | .ok w' metadata' =>
                    if env.writeRootFail then .err w' .ioError
                    else
                      let w'' := { w' with rootMeta := some metadata' }
                      if env.doneFail then .err w'' .distributionError
                      else .ok w'' ()

/-! ## Behaviour of the dispatch and collect loops -/

/-- Number of output shards of a `SeparateDatasetColumns` run. -/
def sepNumShards (env : Env) (dataset_shards : List String) : ℕ :=
  num_output_shards dataset_shards.length env.numWorkers

/-- The output shards whose metadata file is missing at the start of the
run: exactly the jobs the dispatch loop submits. -/
def sepMissing (env : Env) (dataset_shards : List String) (w : World) : List ℕ :=
  (List.range (sepNumShards env dataset_shards)).filter
    (fun i => !(w.shardMeta i).isSome)

/-- The dispatch loop, when no read or dispatch fails: skips the shards
whose metadata pre-exists (folding their stored counts into the total),
submits one request per missing shard, and counts them in `pending`. -/
theorem sepDispatchLoop_ok_eq (env : Env) (ds : List String) (dt : String)
    (spec : DataSpecification) (cols : List ℕ) (cfg : CreateDatasetCacheConfig)
    (dir : String) (num : ℕ) (is : List ℕ) :
    ∀ (w : World) (cm : CacheMetadata) (pending : ℕ),
    (∀ i ∈ is, env.readShardFail i = false ∧ env.dispatchFail i = false) →
    sepDispatchLoop env ds dt spec cols cfg dir num is w cm pending =
      .ok { w with dispatched := (w.dispatched ++
              (is.filter (fun i => !(w.shardMeta i).isSome)).map
                (mkWorkerRequest ds dt spec cols cfg dir num env.numWorkers)) }
        ({ cm with num_examples := (cm.num_examples +
              ((is.filter (fun i => (w.shardMeta i).isSome)).map
                (fun i => (w.shardMeta i).getD 0)).sum) },
          pending + (is.filter (fun i => !(w.shardMeta i).isSome)).length) := by
  induction is with
  | nil => intro w cm pending _; simp [sepDispatchLoop]
  | cons i rest ih =>
      intro w cm pending h
      have hi := h i (by simp)
      have hrest : ∀ j ∈ rest, env.readShardFail j = false ∧ env.dispatchFail j = false :=
        fun j hj => h j (by simp [hj])
      cases hsm : w.shardMeta i with
      | some stored =>
          simp only [sepDispatchLoop, hsm, hi.1, Bool.false_eq_true, if_false]
          rw [ih _ _ _ hrest]
          simp [hsm, List.filter_cons, add_assoc]
      | none =>
          simp only [sepDispatchLoop, hsm, hi.2, Bool.false_eq_true, if_false]
          rw [ih _ _ _ hrest]
          simp [hsm, List.filter_cons, List.append_assoc, add_assoc, add_comm 1]

/-- The collect loop, when no collect or write fails: writes one shard
metadata file per answer and folds each answer's count into the total;
everything else in the world is untouched. -/
theorem sepCollectLoop_ok_eq (env : Env) (rs : List ℕ) :
    ∀ (w : World) (cm : CacheMetadata),
    (∀ i ∈ rs, env.collectFail i = false ∧ env.writeShardFail i = false) →
    sepCollectLoop env rs w cm =
      .ok { w with shardMeta :=
              (fun j => if j ∈ rs then some (env.res j) else w.shardMeta j) }
        { cm with num_examples := (cm.num_examples + (rs.map env.res).sum) } := by
  induction rs with
  | nil => intro w cm _; simp [sepCollectLoop]
  | cons i rest ih =>
      intro w cm h
      have hi := h i (by simp)
      simp only [sepCollectLoop, hi.1, hi.2, Bool.false_eq_true, if_false]
      rw [ih _ _ (fun j hj => h j (by simp [hj]))]
      have hfun : (fun j => if j ∈ rest then some (env.res j)
            else Function.update w.shardMeta i (some (env.res i)) j) =
          (fun j => if j ∈ i :: rest then some (env.res j) else w.shardMeta j) := by
        funext j
        by_cases hjr : j ∈ rest
        · simp [hjr]
        · by_cases hij : j = i
          · subst hij; simp [hjr, Function.update]
          · simp [hjr, hij, Function.update]
      simp only [hfun]
      congr 1
      simp [add_assoc]

/-- Neither branch of the dispatch loop touches the root metadata file,
the shard metadata files, the directories, the pool state or the
concurrency bound — on success or on failure. -/
theorem sepDispatchLoop_world (env : Env) (ds : List String) (dt : String)
    (spec : DataSpecification) (cols : List ℕ) (cfg : CreateDatasetCacheConfig)
    (dir : String) (num : ℕ) (is : List ℕ) :
    ∀ (w : World) (cm : CacheMetadata) (pending : ℕ),
    (sepDispatchLoop env ds dt spec cols cfg dir num is w cm pending).world.rootMeta
        = w.rootMeta ∧
    (sepDispatchLoop env ds dt spec cols cfg dir num is w cm pending).world.shardMeta
        = w.shardMeta ∧
    (sepDispatchLoop env ds dt spec cols cfg dir num is w cm pending).world.parallelism
        = w.parallelism ∧
    (sepDispatchLoop env ds dt spec cols cfg dir num is w cm pending).world.dirs
        = w.dirs ∧
    (sepDispatchLoop env ds dt spec cols cfg dir num is w cm pending).world.managerStarted
        = w.managerStarted := by
  induction is with
  | nil => intro w cm pending; simp [sepDispatchLoop, BRes.world]
  | cons i rest ih =>
      intro w cm pending
      simp only [sepDispatchLoop]
      cases hsm : w.shardMeta i with
      | some stored =>
          cases hr : env.readShardFail i with
          | true => simp [BRes.world]
          | false => simpa using ih _ _ _
      | none =>
          cases hd : env.dispatchFail i with
          | true => simp [BRes.world]
          | false => simpa using ih _ _ _

/-- Neither branch of the collect loop touches the root metadata file,
the directories, the pool state, the concurrency bound or the dispatched
requests — on success or on failure. -/
theorem sepCollectLoop_world (env : Env) (rs : List ℕ) :
    ∀ (w : World) (cm : CacheMetadata),
    (sepCollectLoop env rs w cm).world.rootMeta = w.rootMeta ∧
    (sepCollectLoop env rs w cm).world.parallelism = w.parallelism ∧
    (sepCollectLoop env rs w cm).world.dirs = w.dirs ∧
    (sepCollectLoop env rs w cm).world.managerStarted = w.managerStarted ∧
    (sepCollectLoop env rs w cm).world.dispatched = w.dispatched := by
  induction rs with
  | nil => intro w cm; simp [sepCollectLoop, BRes.world]
  | cons i rest ih =>
      intro w cm
      simp only [sepCollectLoop]
      cases hc : env.collectFail i with
      | true => simp [BRes.world]
      | false =>
          cases hw : env.writeShardFail i with
          | true => simp [BRes.world]
          | false => simpa using ih _ _

/-- Result-oriented form of `sepDispatchLoop_world`. -/
theorem sepDispatchLoop_res_world {env : Env} {ds : List String} {dt : String}
    {spec : DataSpecification} {cols : List ℕ} {cfg : CreateDatasetCacheConfig}
    {dir : String} {num : ℕ} {is : List ℕ} {w : World} {cm : CacheMetadata}
    {pending : ℕ} {r : BRes (CacheMetadata × ℕ)}
    (h : sepDispatchLoop env ds dt spec cols cfg dir num is w cm pending = r) :
    r.world.rootMeta = w.rootMeta ∧ r.world.shardMeta = w.shardMeta ∧
    r.world.parallelism = w.parallelism ∧ r.world.dirs = w.dirs ∧
    r.world.managerStarted = w.managerStarted := by
  subst h; exact sepDispatchLoop_world env ds dt spec cols cfg dir num is w cm pending

/-- Result-oriented form of `sepCollectLoop_world`. -/
theorem sepCollectLoop_res_world {env : Env} {rs : List ℕ} {w : World}
    {cm : CacheMetadata} {r : BRes CacheMetadata}
    (h : sepCollectLoop env rs w cm = r) :
    r.world.rootMeta = w.rootMeta ∧ r.world.parallelism = w.parallelism ∧
    r.world.dirs = w.dirs ∧ r.world.managerStarted = w.managerStarted ∧
    r.world.dispatched = w.dispatched := by
  subst h; exact sepCollectLoop_world env rs w cm

/-- `SeparateDatasetColumns` never writes or removes the root cache
metadata file, on success or on failure. -/
theorem SeparateDatasetColumns_rootMeta (env : Env) (ds : List String)
    (dt : String) (spec : DataSpecification) (cols : List ℕ)
    (cfg : CreateDatasetCacheConfig) (dir : String) (w : World)
    (cm : CacheMetadata) :
    (SeparateDatasetColumns env ds dt spec cols cfg dir w cm).world.rootMeta
      = w.rootMeta := by
  unfold SeparateDatasetColumns
  cases hp : env.setParallelOneFail with
  | true => simp [BRes.world]
  | false =>
      simp only [Bool.false_eq_true, if_false]
      split
      · next w' e hdl =>
          have h1 := (sepDispatchLoop_res_world hdl).1
          simpa [BRes.world] using h1
      · next w' cm' pending hdl =>
          have h1 := (sepDispatchLoop_res_world hdl).1
          simp only [BRes.world] at h1
          split
          · next w'' e hcl =>
              have h2 := (sepCollectLoop_res_world hcl).1
              simp only [BRes.world] at h2
              simp only [BRes.world]
              rw [h2]; simpa using h1
          · next w'' cm'' hcl =>
              have h2 := (sepCollectLoop_res_world hcl).1
              simp only [BRes.world] at h2
              cases hr : env.setParallelRestoreFail with
              | true =>
                  simp only [if_true, BRes.world]
                  rw [h2]; simpa using h1
              | false =>
                  simp only [Bool.false_eq_true, if_false, BRes.world]
                  rw [h2]; simpa using h1

/-! ## Planner arithmetic -/

/-- The planner's `(Nin + s - 1) / s` is the ceiling of `Nin / s`. -/
theorem num_output_shards_eq_ceil (Nin W : ℕ) :
    (num_output_shards Nin W : ℤ) =
      ⌈(Nin : ℚ) / (shards_per_requests Nin W : ℚ)⌉ := by
  have hs : 1 ≤ shards_per_requests Nin W := le_max_left _ _
  set s := shards_per_requests Nin W with hsdef
  have hs0 : 0 < s := hs
  have key := Nat.div_add_mod (Nin + s - 1) s
  have hrlt : (Nin + s - 1) % s < s := Nat.mod_lt _ hs0
  set q := (Nin + s - 1) / s with hq
  set r := (Nin + s - 1) % s with hr
  obtain ⟨h1, h2⟩ : Nin ≤ s * q ∧ s * q < Nin + s := by
    generalize s * q = P at key ⊢
    omega
  have hsQ : (0 : ℚ) < (s : ℚ) := by exact_mod_cast hs0
  have : (⌈(Nin : ℚ) / (s : ℚ)⌉ : ℤ) = (q : ℤ) := by
    rw [Int.ceil_eq_iff]
    constructor
    · rw [lt_div_iff₀ hsQ]
      have h2' : (s : ℚ) * (q : ℚ) < (Nin : ℚ) + (s : ℚ) := by exact_mod_cast h2
      push_cast
      nlinarith
    · rw [div_le_iff₀ hsQ]
      have h1' : (Nin : ℚ) ≤ (s : ℚ) * (q : ℚ) := by exact_mod_cast h1
      push_cast
      nlinarith
  rw [this]
  rfl

/-- C1: the claim "`num_output_shards` is non-decreasing as `Nin`
increases (for fixed `W` and `K`)" is false: at `W = 1` (so
`W*K = 10`), 19 input shards give 19 output shards but 20 input shards
give only 10 — the shard count drops when `shards_per_requests` jumps
from 1 to 2. -/
theorem C1_counterexample :
    num_output_shards 19 1 = 19 ∧ num_output_shards 20 1 = 10 ∧
    ¬ (∀ Nin₁ Nin₂ : ℕ, Nin₁ ≤ Nin₂ →
        num_output_shards Nin₁ 1 ≤ num_output_shards Nin₂ 1) := by
  refine ⟨by decide, by decide, fun h => ?_⟩
  exact absurd (h 19 20 (by decide)) (by decide)

/-- C1 (amended): for fixed `W ≥ 1` and the constant `K`,
`num_output_shards` is non-decreasing as `Nin` increases on every range
of `Nin` over which `shards_per_requests` is constant (it can decrease
where `shards_per_requests` jumps, namely when `Nin` crosses a multiple
of `W*K`). -/
theorem C1_amended (W Nin₁ Nin₂ : ℕ) (hW : 1 ≤ W) (h : Nin₁ ≤ Nin₂)
    (hspj : shards_per_requests Nin₁ W = shards_per_requests Nin₂ W) :
    num_output_shards Nin₁ W ≤ num_output_shards Nin₂ W := by
  unfold num_output_shards
  rw [hspj]
  exact Nat.div_le_div_right (by omega)

/-- Witness for `C1_amended` at `W = 4`, `Nin₁ = 5`, `Nin₂ = 7`. -/
theorem C1_amended_witness :
    1 ≤ 4 ∧ 5 ≤ 7 ∧ shards_per_requests 5 4 = shards_per_requests 7 4 ∧
    num_output_shards 5 4 ≤ num_output_shards 7 4 :=
  ⟨by decide, by decide, by decide, C1_amended 4 5 7 (by decide) (by decide) (by decide)⟩

/-- C5: the planner computes
`shards_per_job = max(1, floor(Nin / (W*K)))` with `K = 10` and
`num_output_shards = ceil(Nin / shards_per_job)`; job `i` covers the
input-shard range `[i*shards_per_job, min(Nin, (i+1)*shards_per_job))`
and its request carries shard index `i` and targets worker `i mod W`;
in particular `Nin=23, W=4` gives `shards_per_job = 1` and 23 output
shards with job `i` on worker `i mod 4`, and `Nin = 0` gives zero
jobs. -/
theorem C5_planner (Nin W : ℕ) (hW : 1 ≤ W) :
    shards_per_requests Nin W = max 1 (Nin / (W * kNumShardPerWorkers)) ∧
    kNumShardPerWorkers = 10 ∧
    (num_output_shards Nin W : ℤ) =
      ⌈(Nin : ℚ) / (shards_per_requests Nin W : ℚ)⌉ ∧
    (∀ i, begin_shard_idx Nin W i = i * shards_per_requests Nin W ∧
        end_shard_idx Nin W i = min Nin ((i + 1) * shards_per_requests Nin W) ∧
        job_worker W i = i % W) ∧
    (∀ (ds : List String) (dt : String) (spec : DataSpecification)
        (cols : List ℕ) (cfg : CreateDatasetCacheConfig) (dir : String)
        (num i : ℕ),
        (mkWorkerRequest ds dt spec cols cfg dir num W i).shard_idx = i ∧
        (mkWorkerRequest ds dt spec cols cfg dir num W i).worker_idx = i % W) ∧
    shards_per_requests 23 4 = 1 ∧ num_output_shards 23 4 = 23 ∧
    num_output_shards 0 W = 0 ∧ List.range (num_output_shards 0 W) = [] := by
  refine ⟨rfl, rfl, num_output_shards_eq_ceil Nin W,
    fun i => ⟨rfl, rfl, rfl⟩, fun ds dt spec cols cfg dir num i => ⟨rfl, rfl⟩,
    by decide, by decide, ?_, ?_⟩
  · simp [num_output_shards, shards_per_requests]
  · simp [num_output_shards, shards_per_requests]

/-- Witness for `C5_planner` at `Nin = 23`, `W = 4`. -/
theorem C5_planner_witness :
    shards_per_requests 23 4 = max 1 (23 / (4 * kNumShardPerWorkers)) ∧
    kNumShardPerWorkers = 10 ∧
    (num_output_shards 23 4 : ℤ) =
      ⌈(23 : ℚ) / (shards_per_requests 23 4 : ℚ)⌉ ∧
    (∀ i, begin_shard_idx 23 4 i = i * shards_per_requests 23 4 ∧
        end_shard_idx 23 4 i = min 23 ((i + 1) * shards_per_requests 23 4) ∧
        job_worker 4 i = i % 4) ∧
    (∀ (ds : List String) (dt : String) (spec : DataSpecification)
        (cols : List ℕ) (cfg : CreateDatasetCacheConfig) (dir : String)
        (num i : ℕ),
        (mkWorkerRequest ds dt spec cols cfg dir num 4 i).shard_idx = i ∧
        (mkWorkerRequest ds dt spec cols cfg dir num 4 i).worker_idx = i % 4) ∧
    shards_per_requests 23 4 = 1 ∧ num_output_shards 23 4 = 23 ∧
    num_output_shards 0 4 = 0 ∧ List.range (num_output_shards 0 4) = [] :=
  C5_planner 23 4 (by decide)

/-! ## Report claims -/

/-- The metadata of spec Scenario B: three numerical columns with
unique-value counts 50, 150 and 9, none discretized. -/
def mdScenarioB : CacheMetadata :=
  { columns := [
      { available := true, variant := some (.numerical 0 50 false 0) },
      { available := true, variant := some (.numerical 0 150 false 0) },
      { available := true, variant := some (.numerical 0 9 false 0) }] }

/-- C4: the claim is false on its second line.  For Scenario B the
report does contain "Mean number of unique values: 69"
(`209 / 3 = 69` in integer division), but the `<=100` ratio line renders
`float(2)/3` with absl's six significant digits as `0.666667`, not
`0.67`: the exact line the claim demands does not occur. -/
theorem C4_counterexample :
    containsLine (MetaDataReportLines mdScenarioB none)
      "Mean number of unique values: 69" ∧
    ¬ containsLine (MetaDataReportLines mdScenarioB none)
      "Ratio of numerical columns with <=100 values: 0.67 (2)" := by
  constructor
  · decide
  · decide

/-- C4 (amended): for Scenario B the report contains the exact line
"Mean number of unique values: 69" and the `<=100` ratio line with the
value rendered to six significant digits:
"Ratio of numerical columns with <=100 values: 0.666667 (2)". -/
theorem C4_amended :
    containsLine (MetaDataReportLines mdScenarioB none)
      "Mean number of unique values: 69" ∧
    containsLine (MetaDataReportLines mdScenarioB none)
      "Ratio of numerical columns with <=100 values: 0.666667 (2)" := by
  constructor
  · decide
  · decide

/-- The column holds a numerical variant marked discretized. -/
def ColumnMetadata.isDiscretized (c : ColumnMetadata) : Bool :=
  match c.variant with
  | some (.numerical _ _ true _) => true
  | _ => false

/-- Feature `f` of `md` holds a numerical variant (`has_numerical()`). -/
def isNumericalCol (md : CacheMetadata) (f : ℕ) : Bool :=
  (md.columns.getD f {}).has_numerical

/-- Feature `f` of `md` holds a numerical variant marked discretized. -/
def isDiscretizedCol (md : CacheMetadata) (f : ℕ) : Bool :=
  (md.columns.getD f {}).isDiscretized

/-- One step of the statistics loop: effect on the numerical counter. -/
theorem accumStatsCol_num_numerical (st : ReportStats) (c : ColumnMetadata) :
    (accumStatsCol st c).num_numerical =
      st.num_numerical + (if c.has_numerical then 1 else 0) := by
  unfold accumStatsCol ColumnMetadata.has_numerical
  rcases hv : c.variant with _ | v
  · simp [ColumnMetadata.type_case, hv]
  · rcases v with ⟨rmv, u, disc, nd⟩ | ⟨nv, rmv⟩ | rmv <;>
      simp only [ColumnMetadata.type_case, hv] <;>
      first
        | (rcases disc with _ | _ <;> by_cases h1 : u ≤ 100 <;>
            by_cases h2 : u ≤ 16000 <;> simp [h1, h2])
        | simp

/-- One step of the statistics loop: effect on the discretized counters
when the column is not discretized. -/
theorem accumStatsCol_not_discretized (st : ReportStats) (c : ColumnMetadata)
    (h : c.isDiscretized = false) :
    (accumStatsCol st c).num_numerical_discretized = st.num_numerical_discretized ∧
    (accumStatsCol st c).sum_num_discretized_values = st.sum_num_discretized_values := by
  unfold accumStatsCol
  unfold ColumnMetadata.isDiscretized at h
  rcases hv : c.variant with _ | v
  · simp [ColumnMetadata.type_case, hv]
  · rw [hv] at h
    rcases v with ⟨rmv, u, disc, nd⟩ | ⟨nv, rmv⟩ | rmv <;>
      simp only [ColumnMetadata.type_case, hv]
    · rcases disc with _ | _
      · by_cases h1 : u ≤ 100 <;> by_cases h2 : u ≤ 16000 <;> simp [h1, h2]
      · simp at h
    · simp
    · simp

/-- The statistics loop counts the numerical features. -/
theorem reportStats_fold_num_numerical (md : CacheMetadata) (fs : List ℕ) :
    ∀ st : ReportStats, (fs.foldl (accumStats md) st).num_numerical =
      st.num_numerical + fs.countP (isNumericalCol md) := by
  induction fs with
  | nil => intro st; simp
  | cons f rest ih =>
      intro st
      rw [List.foldl_cons, ih, List.countP_cons]
      show _ = st.num_numerical + (rest.countP (isNumericalCol md) + _)
      rw [show accumStats md st f = accumStatsCol st (md.columns.getD f {}) from rfl,
        accumStatsCol_num_numerical]
      by_cases h : isNumericalCol md f
      · rw [show (md.columns.getD f {}).has_numerical = isNumericalCol md f from rfl]
        simp [h]; omega
      · rw [show (md.columns.getD f {}).has_numerical = isNumericalCol md f from rfl]
        simp [h]

/-- The statistics loop leaves the discretized counters at zero when no
feature is discretized. -/
theorem reportStats_fold_not_discretized (md : CacheMetadata) (fs : List ℕ)
    (h : ∀ f ∈ fs, isDiscretizedCol md f = false) :
    ∀ st : ReportStats,
      (fs.foldl (accumStats md) st).num_numerical_discretized =
        st.num_numerical_discretized ∧
      (fs.foldl (accumStats md) st).sum_num_discretized_values =
        st.sum_num_discretized_values := by
  induction fs with
  | nil => intro st; simp
  | cons f rest ih =>
      intro st
      have hf := accumStatsCol_not_discretized st (md.columns.getD f {}) (h f (by simp))
      have := ih (fun j hj => h j (by simp [hj])) (accumStats md st f)
      rw [List.foldl_cons]
      exact ⟨this.1.trans hf.1, this.2.trans hf.2⟩

/-- C9: for every metadata and feature subset in which at least one
selected column is numerical but none is discretized, the report still
emits the "Mean number of unique values for discretized columns" line,
whose value is the unguarded float division `0 / 0`, rendered `nan`. -/
theorem C9_unguarded_division (md : CacheMetadata) (features : List ℕ)
    (hnum : ∃ f ∈ features, isNumericalCol md f = true)
    (hdisc : ∀ f ∈ features, isDiscretizedCol md f = false) :
    "\tMean number of unique values for discretized columns: nan" ∈
      MetaDataReportLines md (some features) := by
  have h1 : (reportStats md features).num_numerical =
      features.countP (isNumericalCol md) := by
    have := reportStats_fold_num_numerical md features {}
    simpa [reportStats] using this
  have hpos : 0 < (reportStats md features).num_numerical := by
    rw [h1, List.countP_pos_iff]
    obtain ⟨f, hf, hnf⟩ := hnum
    exact ⟨f, hf, hnf⟩
  have h2 := reportStats_fold_not_discretized md features hdisc {}
  have h2a : (reportStats md features).num_numerical_discretized = 0 := by
    simpa [reportStats] using h2.1
  have h2b : (reportStats md features).sum_num_discretized_values = 0 := by
    simpa [reportStats] using h2.2
  simp only [MetaDataReportLines, hpos, if_true, h2a, h2b]
  simp [fmtFloatDiv]

/-- Metadata with a single numerical, non-discretized column, for the
`C9` witness. -/
def mdC9 : CacheMetadata :=
  { columns := [{ available := true, variant := some (.numerical 0 7 false 0) }] }

/-- Witness for `C9_unguarded_division` on `mdC9` with features `[0]`. -/
theorem C9_unguarded_division_witness :
    "\tMean number of unique values for discretized columns: nan" ∈
      MetaDataReportLines mdC9 (some [0]) :=
  C9_unguarded_division mdC9 [0] ⟨0, by decide, by decide⟩ (by decide)

/-! ## Metadata-builder claims -/

/-- The column types the builder supports. -/
def SupportedType (t : ColumnType) : Prop :=
  t = ColumnType.NUMERICAL ∨ t = ColumnType.CATEGORICAL ∨ t = ColumnType.BOOLEAN

/-- The selected-column loop succeeds when every selected column exists
and has a supported type. -/
theorem applySelected_ok (ds : DataSpecification) (cs : List ℕ) :
    ∀ acc, (∀ i ∈ cs, ∃ c, ds.columns[i]? = some c ∧ SupportedType c.type) →
    ∃ out, applySelected ds cs acc = .ok out := by
  induction cs with
  | nil => intro acc _; exact ⟨acc, rfl⟩
  | cons i rest ih =>
      intro acc h
      obtain ⟨c, hc, hsup⟩ := h i (by simp)
      have hv : ∃ v, mkVariant c = .ok v := by
        rcases hsup with h | h | h <;> simp [mkVariant, h]
      obtain ⟨v, hv⟩ := hv
      obtain ⟨out, hout⟩ := ih (acc.set i ⟨true, some v⟩) (fun j hj => h j (by simp [hj]))
      exact ⟨out, by simp [applySelected, hc, hv, hout]⟩

/-- The selected-column loop preserves the number of column slots. -/
theorem applySelected_length (ds : DataSpecification) (cs : List ℕ) :
    ∀ acc out, applySelected ds cs acc = .ok out → out.length = acc.length := by
  induction cs with
  | nil => intro acc out h; cases h; rfl
  | cons i rest ih =>
      intro acc out h
      unfold applySelected at h
      cases hc : ds.columns[i]? with
      | none => simp only [hc] at h; exact Except.noConfusion h
      | some src =>
          simp only [hc] at h
          cases hv : mkVariant src with
          | error e => simp only [hv] at h; exact Except.noConfusion h
          | ok v =>
              simp only [hv] at h
              have := ih _ _ h
              simpa using this

/-- The selected-column loop does not touch unselected slots. -/
theorem applySelected_not_mem (ds : DataSpecification) (cs : List ℕ) :
    ∀ acc out (j : ℕ), j ∉ cs → applySelected ds cs acc = .ok out →
      out[j]? = acc[j]? := by
  induction cs with
  | nil => intro acc out j _ h; cases h; rfl
  | cons i rest ih =>
      intro acc out j hj h
      unfold applySelected at h
      cases hc : ds.columns[i]? with
      | none => simp only [hc] at h; exact Except.noConfusion h
      | some src =>
          simp only [hc] at h
          cases hv : mkVariant src with
          | error e => simp only [hv] at h; exact Except.noConfusion h
          | ok v =>
              simp only [hv] at h
              have hji : i ≠ j := fun hij => hj (by simp [hij])
              have hjr : j ∉ rest := fun hr => hj (by simp [hr])
              rw [ih _ _ j hjr h, List.getElem?_set_ne hji]

/-- The `remove_zero_weighted_examples` validation outcomes. -/
def IsRzweConfigError (r : Except Err CacheMetadata) : Prop :=
  r = .error (.invalidArgument msgNoWeightColumn) ∨
  r = .error (.invalidArgument msgWeightNotNumerical)

/-- C2 (amended): for configurations whose selected columns all exist
with supported types and whose weight column (if configured) is in
range, the builder fails with the `remove_zero_weighted_examples`
ConfigError **exactly** when the field is present — whether set to true
or to false — and either no weight column is configured or the weight
column's type is not NUMERICAL; when the field is absent, no such error
is raised.  (The C++ validation tests `has_remove_zero_weighted_examples()`,
i.e. field presence, not the field's value.) -/
theorem C2_amended (ds : DataSpecification) (cols : List ℕ)
    (config : CreateDatasetCacheConfig)
    (hsup : ∀ i ∈ cols, ∃ c, ds.columns[i]? = some c ∧ SupportedType c.type)
    (hw : ∀ wi, config.weight_column_idx = some wi → wi < ds.columns.length) :
    IsRzweConfigError (InitializeMetadata ds cols config .fresh) ↔
      (config.remove_zero_weighted_examples.isSome = true ∧
        (config.weight_column_idx = none ∨
          ∃ wi c, config.weight_column_idx = some wi ∧ ds.columns[wi]? = some c ∧
            c.type ≠ ColumnType.NUMERICAL)) := by
  obtain ⟨out, hout⟩ :=
    applySelected_ok ds cols (List.replicate ds.columns.length ({} : ColumnMetadata)) hsup
  unfold InitializeMetadata
  simp only [CacheMetadata.fresh, List.nil_append]
  rw [hout]
  cases hrz : config.remove_zero_weighted_examples with
  | none => simp [IsRzweConfigError]
  | some b =>
      cases hwi : config.weight_column_idx with
      | none => simp [IsRzweConfigError]
      | some wi =>
          have hlt := hw wi hwi
          have hc : ds.columns[wi]? = some ds.columns[wi] :=
            List.getElem?_eq_getElem hlt
          by_cases hT : ds.columns[wi].type = ColumnType.NUMERICAL
          · simp [IsRzweConfigError, hc, hT]
          · simp [IsRzweConfigError, hc, hT]

/-- A dataspec with a single numerical column. -/
def dsNum1 : DataSpecification :=
  { columns := [{ name := "f0", type := .NUMERICAL }] }

/-- A configuration with `remove_zero_weighted_examples` explicitly set
to `false` and no weight column. -/
def cfgRzweFalse : CreateDatasetCacheConfig :=
  { remove_zero_weighted_examples := some false }

/-- A configuration with `remove_zero_weighted_examples` set to `true`
and no weight column. -/
def cfgRzweTrue : CreateDatasetCacheConfig :=
  { remove_zero_weighted_examples := some true }

/-- C2: the claim is false as stated.  With
`remove_zero_weighted_examples` explicitly set to **false** and no
weight column configured, the build still fails with the
`remove_zero_weighted_examples` ConfigError, because the C++ validation
triggers on field presence, not on the value `true`. -/
theorem C2_counterexample :
    cfgRzweFalse.remove_zero_weighted_examples = some false ∧
    InitializeMetadata dsNum1 [0] cfgRzweFalse .fresh =
      .error (.invalidArgument msgNoWeightColumn) :=
  ⟨rfl, rfl⟩

/-- Witness for `C2_amended`: with the field present (set to `true`)
and no weight column, the ConfigError is raised. -/
theorem C2_amended_witness :
    IsRzweConfigError (InitializeMetadata dsNum1 [0] cfgRzweTrue .fresh) :=
  (C2_amended dsNum1 [0] cfgRzweTrue
    (by intro i hi; simp at hi; subst hi; exact ⟨_, rfl, Or.inl rfl⟩)
    (by intro wi h; exact Option.noConfusion h)).mpr ⟨rfl, Or.inl rfl⟩

/-- A successful dispatch loop only changes the metadata's example
counter. -/
theorem sepDispatchLoop_ok_cm (env : Env) (ds : List String) (dt : String)
    (spec : DataSpecification) (cols : List ℕ) (cfg : CreateDatasetCacheConfig)
    (dir : String) (num : ℕ) (is : List ℕ) :
    ∀ w cm p w' cm' p',
      sepDispatchLoop env ds dt spec cols cfg dir num is w cm p = .ok w' (cm', p') →
      cm'.columns = cm.columns ∧
      cm'.num_shards_in_feature_cache = cm.num_shards_in_feature_cache ∧
      cm'.label_column_idx = cm.label_column_idx ∧
      cm'.weight_column_idx = cm.weight_column_idx := by
  induction is with
  | nil =>
      intro w cm p w' cm' p' h
      cases h
      exact ⟨rfl, rfl, rfl, rfl⟩
  | cons i rest ih =>
      intro w cm p w' cm' p' h
      unfold sepDispatchLoop at h
      cases hsm : w.shardMeta i with
      | some stored =>
          simp only [hsm] at h
          cases hr : env.readShardFail i with
          | true => simp [hr] at h
          | false =>
              simp only [hr, Bool.false_eq_true, if_false] at h
              have := ih _ _ _ _ _ _ h
              simpa using this
      | none =>
          simp only [hsm] at h
          cases hd : env.dispatchFail i with
          | true => simp [hd] at h
          | false =>
              simp only [hd, Bool.false_eq_true, if_false] at h
              have := ih _ _ _ _ _ _ h
              simpa using this

/-- A successful collect loop only changes the metadata's example
counter. -/
theorem sepCollectLoop_ok_cm (env : Env) (rs : List ℕ) :
    ∀ w cm w' cm', sepCollectLoop env rs w cm = .ok w' cm' →
      cm'.columns = cm.columns ∧
      cm'.num_shards_in_feature_cache = cm.num_shards_in_feature_cache ∧
      cm'.label_column_idx = cm.label_column_idx ∧
      cm'.weight_column_idx = cm.weight_column_idx := by
  induction rs with
  | nil =>
      intro w cm w' cm' h
      cases h
      exact ⟨rfl, rfl, rfl, rfl⟩
  | cons i rest ih =>
      intro w cm w' cm' h
      unfold sepCollectLoop at h
      cases hc : env.collectFail i with
      | true => simp [hc] at h
      | false =>
          simp only [hc, Bool.false_eq_true, if_false] at h
          cases hw : env.writeShardFail i with
          | true => simp [hw] at h
          | false =>
              simp only [hw, Bool.false_eq_true, if_false] at h
              have := ih _ _ _ _ h
              simpa using this

/-- A successful `SeparateDatasetColumns` run leaves the column metadata
exactly as the builder produced it. -/
theorem SeparateDatasetColumns_ok_columns (env : Env) (ds : List String)
    (dt : String) (spec : DataSpecification) (cols : List ℕ)
    (cfg : CreateDatasetCacheConfig) (dir : String) (w : World)
    (cm : CacheMetadata) (w' : World) (cm' : CacheMetadata)
    (h : SeparateDatasetColumns env ds dt spec cols cfg dir w cm = .ok w' cm') :
    cm'.columns = cm.columns := by
  unfold SeparateDatasetColumns at h
  cases hp : env.setParallelOneFail with
  | true => simp [hp] at h
  | false =>
      simp only [hp, Bool.false_eq_true, if_false] at h
      split at h
      · exact BRes.noConfusion h
      · next w₁ cm₁ pending hdl =>
          split at h
          · exact BRes.noConfusion h
          · next w₂ cm₂ hcl =>
              cases hr : env.setParallelRestoreFail with
              | true => simp [hr] at h
              | false =>
                  simp only [hr, Bool.false_eq_true, if_false] at h
                  cases h
                  have h1 := (sepDispatchLoop_ok_cm env ds dt spec cols cfg dir
                    _ _ _ _ _ _ _ _ hdl).1
                  have h2 := (sepCollectLoop_ok_cm env _ _ _ _ _ hcl).1
                  rw [h2, h1]

/-- C8: the cache metadata built by `InitializeMetadata` from a fresh
metadata has exactly one column entry per dataspec column, index
aligned; entries of unselected columns keep `available = false` and the
unset default variant; and the dispatch/collect phase never alters the
column list, so the invariant holds through the rest of the build. -/
theorem C8_column_completeness (ds : DataSpecification) (cols : List ℕ)
    (config : CreateDatasetCacheConfig) (md : CacheMetadata)
    (h : InitializeMetadata ds cols config .fresh = .ok md) :
    md.columns.length = ds.columns.length ∧
    (∀ j, j < ds.columns.length → j ∉ cols →
      md.columns[j]? = some { available := false, variant := none }) ∧
    (∀ (env : Env) (shards : List String) (dtype cdir : String)
        (w w' : World) (cm' : CacheMetadata),
      SeparateDatasetColumns env shards dtype ds cols config cdir w md = .ok w' cm' →
      cm'.columns = md.columns) := by
  unfold InitializeMetadata at h
  simp only [CacheMetadata.fresh] at h
  cases happ : applySelected ds cols
      (List.replicate ds.columns.length ({} : ColumnMetadata)) with
  | error e =>
      rw [show ([] : List ColumnMetadata) ++
        List.replicate ds.columns.length ({} : ColumnMetadata) =
        List.replicate ds.columns.length ({} : ColumnMetadata) from rfl] at h
      simp only [happ] at h
      exact Except.noConfusion h
  | ok out =>
      rw [show ([] : List ColumnMetadata) ++
        List.replicate ds.columns.length ({} : ColumnMetadata) =
        List.replicate ds.columns.length ({} : ColumnMetadata) from rfl] at h
      simp only [happ] at h
      have hcols : md.columns = out := by
        cases hrz : config.remove_zero_weighted_examples with
        | none =>
            simp only [hrz, Option.isSome_none, Bool.false_eq_true, if_false] at h
            cases h; rfl
        | some b =>
            simp only [hrz, Option.isSome_some, if_true] at h
            cases hwi : config.weight_column_idx with
            | none => simp [hwi] at h
            | some wi =>
                simp only [hwi] at h
                cases hc : ds.columns[wi]? with
                | none => simp [hc] at h
                | some c =>
                    simp only [hc] at h
                    by_cases hT : c.type ≠ ColumnType.NUMERICAL
                    · simp [hT] at h
                    · simp only [hT, if_false] at h
                      cases h; rfl
      refine ⟨?_, ?_, ?_⟩
      · rw [hcols, applySelected_length ds cols _ _ happ]
        simp
      · intro j hj hjcols
        rw [hcols, applySelected_not_mem ds cols _ _ j hjcols happ]
        simp [List.getElem?_replicate, hj]
      · intro env shards dtype cdir w w' cm' hsep
        exact SeparateDatasetColumns_ok_columns env shards dtype ds cols config
          cdir w md w' cm' hsep

/-- The metadata built from `dsNum1` with the empty column subset. -/
def mdEmptySubset : CacheMetadata := { columns := [{}] }

/-- Witness for `C8_column_completeness`: `dsNum1` with the empty
selected subset. -/
theorem C8_column_completeness_witness :
    mdEmptySubset.columns.length = dsNum1.columns.length ∧
    (∀ j, j < dsNum1.columns.length → j ∉ ([] : List ℕ) →
      mdEmptySubset.columns[j]? = some { available := false, variant := none }) ∧
    (∀ (env : Env) (shards : List String) (dtype cdir : String)
        (w w' : World) (cm' : CacheMetadata),
      SeparateDatasetColumns env shards dtype dsNum1 [] {} cdir w mdEmptySubset =
        .ok w' cm' →
      cm'.columns = mdEmptySubset.columns) :=
  C8_column_completeness dsNum1 [] {} mdEmptySubset rfl

/-! ## Dispatcher/collector success behaviour -/

/-- Splitting a mapped sum over a boolean predicate. -/
theorem sum_map_split (l : List ℕ) (p : ℕ → Bool) (f : ℕ → ℕ) :
    (l.map f).sum =
      ((l.filter p).map f).sum + ((l.filter (fun a => !p a)).map f).sum := by
  have hp := List.filter_append_perm p l
  have := (hp.map f).sum_eq
  rw [← this, List.map_append, List.sum_append]

/-- Full success behaviour of `SeparateDatasetColumns`: with no failing
external call, an initially empty request log, and an answer stream
that is a permutation of the missing shards, the run succeeds; it
submits exactly one request per missing shard, writes one shard
metadata file per answer, restores the concurrency default, and its
aggregate example count is the sum, over all output shards, of the
pre-existing count for resumed shards and the worker-reported count for
dispatched shards — independent of the answer order. -/
theorem sep_ok_spec (env : Env) (ds : List String) (dt : String)
    (spec : DataSpecification) (cols : List ℕ) (cfg : CreateDatasetCacheConfig)
    (dir : String) (w : World) (cm : CacheMetadata)
    (hok : env.NoFailures)
    (hperm : List.Perm (env.arrival.take (sepMissing env ds w).length)
      (sepMissing env ds w)) :
    ∃ w' cm', SeparateDatasetColumns env ds dt spec cols cfg dir w cm = .ok w' cm' ∧
      w'.dispatched = w.dispatched ++ (sepMissing env ds w).map
        (mkWorkerRequest ds dt spec cols cfg dir (sepNumShards env ds)
          env.numWorkers) ∧
      (∀ j, w'.shardMeta j =
        if j ∈ sepMissing env ds w then some (env.res j) else w.shardMeta j) ∧
      w'.parallelism = kNumParallelQueriesPerWorker ∧
      w'.rootMeta = w.rootMeta ∧ w'.dirs = w.dirs ∧
      w'.managerStarted = w.managerStarted ∧
      cm'.num_examples =
        ((List.range (sepNumShards env ds)).map
          (fun i => if (w.shardMeta i).isSome then (w.shardMeta i).getD 0
            else env.res i)).sum ∧
      cm'.columns = cm.columns := by
  obtain ⟨hroot, hdir, hmgr, hlist, hp1, hp2, hread, hdispf, hcoll, hwrite,
    hwroot, hdone⟩ := hok
  unfold SeparateDatasetColumns
  simp only [hp1, Bool.false_eq_true, if_false]
  rw [sepDispatchLoop_ok_eq env ds dt spec cols cfg dir _ _ _ _ _
    (fun i _ => ⟨hread i, hdispf i⟩)]
  dsimp only
  rw [sepCollectLoop_ok_eq env _ _ _ (fun i _ => ⟨hcoll i, hwrite i⟩)]
  simp only [hp2, Bool.false_eq_true, if_false]
  set N := num_output_shards ds.length env.numWorkers with hN
  refine ⟨_, _, rfl, ?_, ?_, rfl, rfl, rfl, rfl, ?_, rfl⟩
  · show (w.dispatched ++ (sepMissing env ds w).map
        (mkWorkerRequest ds dt spec cols cfg dir (sepNumShards env ds)
          env.numWorkers)) = _
    rfl
  · intro j
    show (if j ∈ env.arrival.take (0 + (sepMissing env ds w).length)
        then some (env.res j) else w.shardMeta j) = _
    rw [Nat.zero_add]
    by_cases hj : j ∈ sepMissing env ds w
    · rw [if_pos (hperm.mem_iff.mpr hj), if_pos hj]
    · rw [if_neg (fun hc => hj (hperm.mem_iff.mp hc)), if_neg hj]
  · show ((0 + (((List.range N).filter (fun i => (w.shardMeta i).isSome)).map
        (fun i => (w.shardMeta i).getD 0)).sum) +
        ((env.arrival.take (0 + (sepMissing env ds w).length)).map env.res).sum) = _
    rw [Nat.zero_add, Nat.zero_add, (hperm.map env.res).sum_eq]
    rw [sum_map_split (List.range (sepNumShards env ds))
      (fun i => (w.shardMeta i).isSome)
      (fun i => if (w.shardMeta i).isSome then (w.shardMeta i).getD 0
        else env.res i)]
    have h₁ : (((List.range (sepNumShards env ds)).filter
        (fun i => (w.shardMeta i).isSome)).map
        (fun i => if (w.shardMeta i).isSome then (w.shardMeta i).getD 0
          else env.res i)) =
        (((List.range (sepNumShards env ds)).filter
          (fun i => (w.shardMeta i).isSome)).map
          (fun i => (w.shardMeta i).getD 0)) := by
      apply List.map_congr_left
      intro a ha
      have := (List.mem_filter.mp ha).2
      simp [this]
    have h₂ : (((List.range (sepNumShards env ds)).filter
        (fun i => !(w.shardMeta i).isSome)).map
        (fun i => if (w.shardMeta i).isSome then (w.shardMeta i).getD 0
          else env.res i)) =
        (((List.range (sepNumShards env ds)).filter
          (fun i => !(w.shardMeta i).isSome)).map env.res) := by
      apply List.map_congr_left
      intro a ha
      have := (List.mem_filter.mp ha).2
      simp at this
      simp [this]
    rw [h₁, h₂]
    rfl

/-- Pointwise description of the shard metadata files after a full
collect: the aggregate formula equals the sum of the final files. -/
theorem sum_files_eq (env : Env) (ds : List String) (w w' : World)
    (hsm : ∀ j, w'.shardMeta j =
      if j ∈ sepMissing env ds w then some (env.res j) else w.shardMeta j) :
    ((List.range (sepNumShards env ds)).map
      (fun i => if (w.shardMeta i).isSome then (w.shardMeta i).getD 0
        else env.res i)).sum =
    ((List.range (sepNumShards env ds)).map
      (fun i => (w'.shardMeta i).getD 0)).sum := by
  apply congrArg List.sum
  apply List.map_congr_left
  intro a ha
  rw [hsm a]
  by_cases hpre : (w.shardMeta a).isSome
  · have hnm : a ∉ sepMissing env ds w := by
      intro hc
      have := (List.mem_filter.mp hc).2
      simp [hpre] at this
    simp [hpre, hnm]
  · have hm : a ∈ sepMissing env ds w := by
      rw [sepMissing]
      refine List.mem_filter.mpr ⟨?_, ?_⟩
      · exact ha
      · simp [hpre]
    simp [hpre, hm]

/-- C3: with `N` total output shards of which the `k` pre-existing ones
are skipped, the dispatch loop submits exactly `N - k` requests, the
collect loop drains exactly that many answers, and the final aggregate
equals the sum of the counts of all `N` shard metadata files — whichever
shards pre-existed and in whatever order the answers arrive. -/
theorem C3_resumability (env : Env) (ds : List String) (dt : String)
    (spec : DataSpecification) (cols : List ℕ) (cfg : CreateDatasetCacheConfig)
    (dir : String) (w : World) (cm : CacheMetadata)
    (hok : env.NoFailures) (hdisp0 : w.dispatched = [])
    (hperm : List.Perm (env.arrival.take (sepMissing env ds w).length)
      (sepMissing env ds w)) :
    ∃ w' cm', SeparateDatasetColumns env ds dt spec cols cfg dir w cm = .ok w' cm' ∧
      w'.dispatched.length = sepNumShards env ds -
        (List.range (sepNumShards env ds)).countP (fun i => (w.shardMeta i).isSome) ∧
      (sepMissing env ds w).length = sepNumShards env ds -
        (List.range (sepNumShards env ds)).countP (fun i => (w.shardMeta i).isSome) ∧
      cm'.num_examples =
        ((List.range (sepNumShards env ds)).map
          (fun i => if (w.shardMeta i).isSome then (w.shardMeta i).getD 0
            else env.res i)).sum ∧
      cm'.num_examples =
        ((List.range (sepNumShards env ds)).map
          (fun i => (w'.shardMeta i).getD 0)).sum := by
  obtain ⟨w', cm', hrun, hdisp, hsm, _, _, _, _, hnum, _⟩ :=
    sep_ok_spec env ds dt spec cols cfg dir w cm hok hperm
  have hlen : (sepMissing env ds w).length = sepNumShards env ds -
      (List.range (sepNumShards env ds)).countP (fun i => (w.shardMeta i).isSome) := by
    have hcount := List.length_eq_countP_add_countP
      (fun i => (w.shardMeta i).isSome) (List.range (sepNumShards env ds))
    have hfl : (sepMissing env ds w).length =
        (List.range (sepNumShards env ds)).countP
          (fun i => !(w.shardMeta i).isSome) := by
      rw [sepMissing, List.countP_eq_length_filter]
    have hsame : (List.range (sepNumShards env ds)).countP
        (fun i => !(w.shardMeta i).isSome) =
        (List.range (sepNumShards env ds)).countP
          (fun i => decide ¬((w.shardMeta i).isSome = true)) := by
      apply List.countP_congr
      intro a _
      cases hcase : (w.shardMeta a).isSome <;> simp [hcase]
    rw [hfl, hsame]
    rw [List.length_range] at hcount
    omega
  refine ⟨w', cm', hrun, ?_, hlen, hnum, ?_⟩
  · rw [hdisp, hdisp0, List.nil_append, List.length_map, hlen]
  · rw [hnum]
    exact sum_files_eq env ds w w' hsm

/-- An all-success environment with three input shards, one worker,
and answers arriving out of order. -/
def envC3 : Env :=
  { readRootFail := false, dirFail := false, managerFail := false,
    numWorkers := 1, listShardsFail := false,
    datasetShards := ["s0", "s1", "s2"], datasetType := "csv",
    setParallelOneFail := false, setParallelRestoreFail := false,
    readShardFail := fun _ => false, dispatchFail := fun _ => false,
    collectFail := fun _ => false, writeShardFail := fun _ => false,
    res := fun i => i + 10, arrival := [2, 0],
    writeRootFail := false, doneFail := false }

/-- A world where shard 1's metadata file pre-exists with count 5. -/
def wC3 : World :=
  { rootMeta := none, shardMeta := fun i => if i = 1 then some 5 else none,
    dirs := true, managerStarted := true, parallelism := 5, dispatched := [] }

/-- Witness for `C3_resumability`: 3 output shards, 1 pre-existing,
answers in reversed order. -/
theorem C3_resumability_witness :
    ∃ w' cm', SeparateDatasetColumns envC3 ["s0", "s1", "s2"] "csv" {} [0] {}
        "d" wC3 .fresh = .ok w' cm' ∧
      w'.dispatched.length = sepNumShards envC3 ["s0", "s1", "s2"] -
        (List.range (sepNumShards envC3 ["s0", "s1", "s2"])).countP
          (fun i => (wC3.shardMeta i).isSome) ∧
      (sepMissing envC3 ["s0", "s1", "s2"] wC3).length =
        sepNumShards envC3 ["s0", "s1", "s2"] -
        (List.range (sepNumShards envC3 ["s0", "s1", "s2"])).countP
          (fun i => (wC3.shardMeta i).isSome) ∧
      cm'.num_examples =
        ((List.range (sepNumShards envC3 ["s0", "s1", "s2"])).map
          (fun i => if (wC3.shardMeta i).isSome then (wC3.shardMeta i).getD 0
            else envC3.res i)).sum ∧
      cm'.num_examples =
        ((List.range (sepNumShards envC3 ["s0", "s1", "s2"])).map
          (fun i => (w'.shardMeta i).getD 0)).sum :=
  C3_resumability envC3 ["s0", "s1", "s2"] "csv" {} [0] {} "d" wC3 .fresh
    ⟨rfl, rfl, rfl, rfl, rfl, rfl, fun _ => rfl, fun _ => rfl, fun _ => rfl,
      fun _ => rfl, rfl, rfl⟩ rfl (by decide)

/-! ## Build-coordinator claims -/

/-- Result-oriented form of `SeparateDatasetColumns_rootMeta`. -/
theorem SeparateDatasetColumns_res_rootMeta {env : Env} {ds : List String}
    {dt : String} {spec : DataSpecification} {cols : List ℕ}
    {cfg : CreateDatasetCacheConfig} {dir : String} {w : World}
    {cm : CacheMetadata} {r : BRes CacheMetadata}
    (h : SeparateDatasetColumns env ds dt spec cols cfg dir w cm = r) :
    r.world.rootMeta = w.rootMeta := by
  subst h
  exact SeparateDatasetColumns_rootMeta env ds dt spec cols cfg dir w cm

/-- A successful build leaves a root cache metadata file on disk. -/
theorem Create_ok_rootMeta (env : Env) (tp : String) (spec : DataSpecification)
    (cols : Option (List ℕ)) (dir : String) (cfg : CreateDatasetCacheConfig)
    (w w₁ : World) (u : Unit)
    (h : CreateDatasetCacheFromShardedFiles env tp spec cols dir cfg w = .ok w₁ u) :
    ∃ m, w₁.rootMeta = some m := by
  unfold CreateDatasetCacheFromShardedFiles at h
  cases hr : w.rootMeta with
  | some m =>
      simp only [hr] at h
      cases hrr : env.readRootFail with
      | true => simp [hrr] at h
      | false =>
          simp only [hrr, Bool.false_eq_true, if_false] at h
          cases h
          exact ⟨m, hr⟩
  | none =>
      simp only [hr] at h
      cases hd : env.dirFail with
      | true => simp [hd] at h
      | false =>
          simp only [hd, Bool.false_eq_true, if_false] at h
          cases hm : env.managerFail with
          | true => simp [hm] at h
          | false =>
              simp only [hm, Bool.false_eq_true, if_false] at h
              split at h
              · exact BRes.noConfusion h
              · cases hl : env.listShardsFail with
                | true => simp [hl] at h
                | false =>
                    simp only [hl, Bool.false_eq_true, if_false] at h
                    split at h
                    · exact BRes.noConfusion h
                    · cases hwr : env.writeRootFail with
                      | true => simp [hwr] at h
                      | false =>
                          simp only [hwr, Bool.false_eq_true, if_false] at h
                          cases hdn : env.doneFail with
                          | true => simp [hdn] at h
                          | false =>
                              simp only [hdn, Bool.false_eq_true, if_false] at h
                              cases h
                              exact ⟨_, rfl⟩

/-- C6: when the root cache metadata file already exists, `BuildCache`
loads it and returns success with no directory creation, no worker-pool
start, no dispatch and no file mutation (the world is returned exactly
as it was); consequently a second `BuildCache` after any successful one
changes nothing, so both calls leave identical root metadata on disk. -/
theorem C6_idempotence (env₁ env₂ : Env) (tp₁ tp₂ : String)
    (spec₁ spec₂ : DataSpecification) (cols₁ cols₂ : Option (List ℕ))
    (dir₁ dir₂ : String) (cfg₁ cfg₂ : CreateDatasetCacheConfig)
    (w w₁ : World) (hr₂ : env₂.readRootFail = false)
    (h1 : CreateDatasetCacheFromShardedFiles env₁ tp₁ spec₁ cols₁ dir₁ cfg₁ w =
      .ok w₁ ()) :
    CreateDatasetCacheFromShardedFiles env₂ tp₂ spec₂ cols₂ dir₂ cfg₂ w₁ =
      .ok w₁ () ∧
    (∀ m, w.rootMeta = some m → env₁.readRootFail = false → w₁ = w) := by
  obtain ⟨m₁, hm₁⟩ := Create_ok_rootMeta env₁ tp₁ spec₁ cols₁ dir₁ cfg₁ w w₁ () h1
  constructor
  · unfold CreateDatasetCacheFromShardedFiles
    simp only [hm₁, hr₂, Bool.false_eq_true, if_false]
  · intro m hm hrf
    unfold CreateDatasetCacheFromShardedFiles at h1
    simp only [hm, hrf, Bool.false_eq_true, if_false] at h1
    cases h1
    rfl

/-- An environment where every external call succeeds and there is
nothing to do: no input shards, no answers. -/
def envTrivial : Env :=
  { readRootFail := false, dirFail := false, managerFail := false,
    numWorkers := 1, listShardsFail := false, datasetShards := [],
    datasetType := "csv", setParallelOneFail := false,
    setParallelRestoreFail := false, readShardFail := fun _ => false,
    dispatchFail := fun _ => false, collectFail := fun _ => false,
    writeShardFail := fun _ => false, res := fun _ => 0, arrival := [],
    writeRootFail := false, doneFail := false }

/-- A world whose root cache metadata file already exists. -/
def wRoot : World :=
  { rootMeta := some .fresh, shardMeta := fun _ => none, dirs := false,
    managerStarted := false, parallelism := 0, dispatched := [] }

/-- Witness for `C6_idempotence`: both calls short-circuit on `wRoot`. -/
theorem C6_idempotence_witness :
    CreateDatasetCacheFromShardedFiles envTrivial "csv:p" {} none "d" {} wRoot =
      .ok wRoot () ∧
    (∀ m, wRoot.rootMeta = some m → envTrivial.readRootFail = false →
      wRoot = wRoot) :=
  C6_idempotence envTrivial envTrivial "csv:p" "csv:p" {} {} none none "d" "d"
    {} {} wRoot wRoot rfl rfl

/-- C7: the root cache metadata is written only on the success path,
after all pending answers are collected — a failure of directory
creation, metadata I/O, dispatch or collection aborts the build with
the root metadata still absent; on success the persisted aggregate is
the sum over all shard metadata files. -/
theorem C7_root_write_discipline (env : Env) (tp : String)
    (spec : DataSpecification) (cols : Option (List ℕ)) (dir : String)
    (cfg : CreateDatasetCacheConfig) (w : World)
    (h0 : w.rootMeta = none) (hdone : env.doneFail = false) :
    (∀ w' e, CreateDatasetCacheFromShardedFiles env tp spec cols dir cfg w =
        .err w' e → w'.rootMeta = none) ∧
    (env.NoFailures →
      List.Perm (env.arrival.take (sepMissing env env.datasetShards w).length)
        (sepMissing env env.datasetShards w) →
      ∀ w' u, CreateDatasetCacheFromShardedFiles env tp spec cols dir cfg w =
          .ok w' u →
        ∃ cm, w'.rootMeta = some cm ∧
          cm.num_examples = ((List.range (sepNumShards env env.datasetShards)).map
            (fun i => (w'.shardMeta i).getD 0)).sum) := by
  constructor
  · intro w' e h
    unfold CreateDatasetCacheFromShardedFiles at h
    simp only [h0] at h
    cases hd : env.dirFail with
    | true =>
        simp only [hd, if_true] at h
        cases h
        exact h0
    | false =>
        simp only [hd, Bool.false_eq_true, if_false] at h
        cases hm : env.managerFail with
        | true =>
            simp only [hm, if_true] at h
            cases h
            rfl
        | false =>
            simp only [hm, Bool.false_eq_true, if_false] at h
            split at h
            · cases h
              rfl
            · cases hl : env.listShardsFail with
              | true =>
                  simp only [hl, if_true] at h
                  cases h
                  rfl
              | false =>
                  simp only [hl, Bool.false_eq_true, if_false] at h
                  split at h
                  · next ws es hsep =>
                      cases h
                      have := SeparateDatasetColumns_res_rootMeta hsep
                      simp only [BRes.world] at this
                      rw [this]
                  · next ws cms hsep =>
                      cases hwr : env.writeRootFail with
                      | true =>
                          simp only [hwr, if_true] at h
                          cases h
                          have := SeparateDatasetColumns_res_rootMeta hsep
                          simp only [BRes.world] at this
                          rw [this]
                      | false =>
                          simp only [hwr, Bool.false_eq_true, if_false,
                            hdone] at h
                          exact BRes.noConfusion h
  · intro hnf hperm w' u h
    obtain ⟨hroot, hdir, hmgr, hlist, hp1, hp2, hread, hdispf, hcoll, hwrite,
      hwroot, hdone'⟩ := hnf
    unfold CreateDatasetCacheFromShardedFiles at h
    simp only [h0, hdir, hmgr, hlist, hwroot, hdone', Bool.false_eq_true,
      if_false] at h
    split at h
    · exact BRes.noConfusion h
    · next metadata hinit =>
        split at h
        · exact BRes.noConfusion h
        · next ws cms hsep =>
            have hperm' : List.Perm (env.arrival.take
                (sepMissing env env.datasetShards
                  { w with
                    rootMeta := none
                    dirs := true
                    managerStarted := true
                    parallelism := kNumParallelQueriesPerWorker }).length)
                (sepMissing env env.datasetShards
                  { w with
                    rootMeta := none
                    dirs := true
                    managerStarted := true
                    parallelism := kNumParallelQueriesPerWorker }) := hperm
            obtain ⟨w₀, cm₀, hrun, hdisp, hsm, hpar, hroot₀, hdirs₀, hmgr₀,
              hnum, hcols⟩ :=
              sep_ok_spec env env.datasetShards env.datasetType spec
                (GetColumnsOrAll spec cols cfg) cfg dir
                { w with
                  rootMeta := none
                  dirs := true
                  managerStarted := true
                  parallelism := kNumParallelQueriesPerWorker } metadata
                ⟨hroot, hdir, hmgr, hlist, hp1, hp2, hread, hdispf, hcoll,
                  hwrite, hwroot, hdone'⟩ hperm'
            have hcomb := hsep.symm.trans hrun
            cases hcomb
            cases h
            refine ⟨cms, rfl, ?_⟩
            show cms.num_examples = _
            rw [hnum]
            exact sum_files_eq env env.datasetShards
              { w with
                rootMeta := none
                dirs := true
                managerStarted := true
                parallelism := kNumParallelQueriesPerWorker } ws hsm

/-- A world with nothing on disk. -/
def wEmpty : World := World.empty

/-- Witness for `C7_root_write_discipline` on the trivial environment. -/
theorem C7_root_write_discipline_witness :
    (∀ w' e, CreateDatasetCacheFromShardedFiles envTrivial "csv:p" {} none "d"
        {} wEmpty = .err w' e → w'.rootMeta = none) ∧
    (envTrivial.NoFailures →
      List.Perm (envTrivial.arrival.take
        (sepMissing envTrivial envTrivial.datasetShards wEmpty).length)
        (sepMissing envTrivial envTrivial.datasetShards wEmpty) →
      ∀ w' u, CreateDatasetCacheFromShardedFiles envTrivial "csv:p" {} none "d"
          {} wEmpty = .ok w' u →
        ∃ cm, w'.rootMeta = some cm ∧
          cm.num_examples =
            ((List.range (sepNumShards envTrivial envTrivial.datasetShards)).map
              (fun i => (w'.shardMeta i).getD 0)).sum) :=
  C7_root_write_discipline envTrivial "csv:p" {} none "d" {} wEmpty rfl rfl

/-- C10: once the per-worker concurrency has been narrowed to one, any
failure of the dispatch/collect phase (a shard-metadata read, a
dispatch, a collection, a shard-metadata write, or the restore call
itself) leaves the worker pool's limit at 1; the restore to the default
of `kNumParallelQueriesPerWorker = 5` happens only on the success
path. -/
theorem C10_narrowed_on_error (env : Env) (ds : List String) (dt : String)
    (spec : DataSpecification) (cols : List ℕ) (cfg : CreateDatasetCacheConfig)
    (dir : String) (w : World) (cm : CacheMetadata)
    (h1 : env.setParallelOneFail = false) :
    (∀ w' e, SeparateDatasetColumns env ds dt spec cols cfg dir w cm = .err w' e →
      w'.parallelism = 1) ∧
    (∀ w' cm', SeparateDatasetColumns env ds dt spec cols cfg dir w cm =
        .ok w' cm' → w'.parallelism = kNumParallelQueriesPerWorker) := by
  constructor
  · intro w' e h
    unfold SeparateDatasetColumns at h
    simp only [h1, Bool.false_eq_true, if_false] at h
    split at h
    · next wd ed hdl =>
        cases h
        have hp := (sepDispatchLoop_res_world hdl).2.2.1
        simpa [BRes.world] using hp
    · next wd cmd pend hdl =>
        split at h
        · next wc ec hcl =>
            cases h
            have hp := (sepCollectLoop_res_world hcl).2.1
            have hq := (sepDispatchLoop_res_world hdl).2.2.1
            simp only [BRes.world] at hp hq
            rw [hp, hq]
        · next wc cmc hcl =>
            cases hrf : env.setParallelRestoreFail with
            | true =>
                simp only [hrf, if_true] at h
                cases h
                have hp := (sepCollectLoop_res_world hcl).2.1
                have hq := (sepDispatchLoop_res_world hdl).2.2.1
                simp only [BRes.world] at hp hq
                rw [hp, hq]
            | false =>
                simp only [hrf, Bool.false_eq_true, if_false] at h
                exact BRes.noConfusion h
  · intro w' cm' h
    unfold SeparateDatasetColumns at h
    simp only [h1, Bool.false_eq_true, if_false] at h
    split at h
    · exact BRes.noConfusion h
    · next wd cmd pend hdl =>
        split at h
        · exact BRes.noConfusion h
        · next wc cmc hcl =>
            cases hrf : env.setParallelRestoreFail with
            | true => simp only [hrf, if_true] at h; exact BRes.noConfusion h
            | false =>
                simp only [hrf, Bool.false_eq_true, if_false] at h
                cases h
                rfl

/-- An environment in which the first dispatch fails. -/
def envDispatchFail : Env :=
  { envTrivial with datasetShards := ["s0"], dispatchFail := fun _ => true }

/-- Witness for `C10_narrowed_on_error`: a failing dispatch leaves the
limit at 1. -/
theorem C10_narrowed_on_error_witness :
    (∀ w' e, SeparateDatasetColumns envDispatchFail ["s0"] "csv" {} [] {} "d"
        wEmpty .fresh = .err w' e → w'.parallelism = 1) ∧
    (∀ w' cm', SeparateDatasetColumns envDispatchFail ["s0"] "csv" {} [] {} "d"
        wEmpty .fresh = .ok w' cm' →
      w'.parallelism = kNumParallelQueriesPerWorker) :=
  C10_narrowed_on_error envDispatchFail ["s0"] "csv" {} [] {} "d" wEmpty .fresh rfl

end DatasetCache
